import Mathlib

/-!
Verification development for the signing-relay subsystem of a web3 tool
server.  The definitions below are a shallow embedding of the TypeScript
sources:

* `src/src/wallet-server.ts` — the `WalletServer` class: the WebSocket
  message/close/error handlers, the pending-request correlation map, the
  `sendTransaction` entry point with its client-wait loop, delivery loop and
  5-minute timeout, and `startWithRetry` port acquisition.
* the browser wallet client script (served as the wallet UI) — its
  `connectWebSocket` `onmessage` handler, `switchToChain`, `updateWalletInfo`
  and `approveTx` functions, modelled as traces of wallet-provider requests.

JavaScript `Map` objects are modelled as association lists with
`mapSet` / `mapGet` / `mapDelete`; `Set` objects of sockets as lists of
`WSClient` values identified by a numeric socket id; promise settlement is
recorded explicitly in an `outcomes` list mapping a caller token to the
`PromiseOutcome` delivered to it.  Wall-clock time in the client-wait loop is
idealised: each 500 ms sleep advances the clock by exactly 500.
-/

/-- `TransactionRequest` from wallet-server.ts: the relay never interprets
`data`, so it is kept as an opaque (already serialized) string. -/
structure TransactionRequest where
  id : String
  type : String
  chain : String
  data : String
deriving Repr, DecidableEq

/-- `TransactionResponse` from wallet-server.ts.  `result?: unknown` and
`error?: string` are optional fields, so both are `Option`s; an absent field
is `none` (JavaScript `undefined`). -/
structure TransactionResponse where
  id : String
  success : Bool
  result : Option String
  error : Option String
deriving Repr, DecidableEq

/-- A connected WebSocket, identified by socket id; `readyState` follows the
ws constants (CONNECTING 0, OPEN 1, CLOSING 2, CLOSED 3). -/
structure WSClient where
  sid : Nat
  readyState : Nat
deriving Repr, DecidableEq

/-- `WebSocket.OPEN` -/
def wsOPEN : Nat := 1

/-- What a pending promise was settled with: `resolve(result)` (the result
may be `undefined`, i.e. `none`) or `reject(new Error msg)`. -/
inductive PromiseOutcome where
  | resolved (result : Option String)
  | rejected (msg : String)
deriving Repr, DecidableEq

/-- `Map.get` on the association-list model. -/
def mapGet (m : List (String × Nat)) (k : String) : Option Nat :=
  (m.find? (fun p => p.1 = k)).map (fun p => p.2)

/-- `Map.set` on the association-list model: replace the existing binding if
the key is present, otherwise append. -/
def mapSet (m : List (String × Nat)) (k : String) (v : Nat) : List (String × Nat) :=
  if m.any (fun p => p.1 = k) then
    m.map (fun p => if p.1 = k then (k, v) else p)
  else
    m ++ [(k, v)]

/-- `Map.delete` on the association-list model. -/
def mapDelete (m : List (String × Nat)) (k : String) : List (String × Nat) :=
  m.filter (fun p => p.1 ≠ k)

/-- The relay server state that the claims concern: the ClientSet
(`clients : Set<WebSocket>`), the Correlation Table
(`pendingRequests : Map<string, {resolve, reject}>`, here mapping a request
id to the caller token whose promise it settles), and the record of
already-settled caller promises. -/
structure ServerState where
  clients : List WSClient
  pending : List (String × Nat)
  outcomes : List (Nat × PromiseOutcome)
deriving Repr, DecidableEq

/-- JavaScript `response.error || 'Transaction failed'`: `undefined` and the
empty string are falsy. -/
def jsOrDefault (e : Option String) (d : String) : String :=
  match e with
  | none => d
  | some s => if s = "" then d else s

/-- How the message handler settles a found pending entry
(wallet-server.ts lines 79–83): resolve with `response.result` on
`success`, otherwise reject with `response.error || 'Transaction failed'`. -/
def settleOutcome (r : TransactionResponse) : PromiseOutcome :=
  if r.success then .resolved r.result
  else .rejected (jsOrDefault r.error "Transaction failed")

/-- Common settle step: if `key` has a pending entry, record the outcome for
its caller token and delete the entry; otherwise do nothing.  This is the
body of both the `ws.on('message')` handler (lines 77–85) and the
`setTimeout` callback (lines 251–256). -/
def settleWith (s : ServerState) (key : String) (out : PromiseOutcome) : ServerState :=
  match s.pending.find? (fun p => p.1 = key) with
  | none => s
  | some e =>
    { s with pending := mapDelete s.pending key
             outcomes := (e.2, out) :: s.outcomes }

/-- `Set.delete(ws)` keyed by socket identity. -/
def removeClient (cs : List WSClient) (c : WSClient) : List WSClient :=
  cs.filter (fun x => x.sid ≠ c.sid)

/-- `Set.add(ws)`: a no-op when the socket is already present. -/
def addClient (cs : List WSClient) (c : WSClient) : List WSClient :=
  if cs.any (fun x => x.sid = c.sid) then cs else cs ++ [c]

/-- The inbound events handled by `setupWebSocket` and the armed timers.  A
`message` event carries the result of `JSON.parse` on the raw bytes: `none`
when parsing threw (the `catch` branch), `some r` otherwise. -/
inductive RelayEvent where
  | message (parsed : Option TransactionResponse)
  | timer (id : String)
  | connect (c : WSClient)
  | disconnect (c : WSClient)
  | socketError (c : WSClient)
deriving Repr, DecidableEq

/-- One event-loop dispatch of the relay server:
* `message none` — `JSON.parse` threw; the `catch` logs and the state is
  untouched (lines 86–88).
* `message (some r)` — look up `r.id` in `pendingRequests`; if present,
  resolve/reject per `r.success` and delete the entry; if absent, nothing
  (lines 77–85).
* `timer id` — the 5-minute timeout callback: if `id` is still pending,
  delete it and reject with "Transaction request timed out" (lines 251–256).
* `connect` / `disconnect` / `socketError` — `Set.add` / `Set.delete` on the
  ClientSet only (lines 69, 91–99). -/
def step (s : ServerState) (e : RelayEvent) : ServerState :=
  match e with
  | .message none => s
  | .message (some r) => settleWith s r.id (settleOutcome r)
  | .timer id => settleWith s id (.rejected "Transaction request timed out")
  | .connect c => { s with clients := addClient s.clients c }
  | .disconnect c => { s with clients := removeClient s.clients c }
  | .socketError c => { s with clients := removeClient s.clients c }

/-- Run a sequence of inbound events. -/
def run (s : ServerState) (es : List RelayEvent) : ServerState :=
  es.foldl step s

/-- Number of pending entries whose promise is the caller token `tok`. -/
def pendTokCount (tok : Nat) (s : ServerState) : Nat :=
  (s.pending.filter (fun p => p.2 = tok)).length

/-- Number of recorded settlements of the caller token `tok`. -/
def outTokCount (tok : Nat) (s : ServerState) : Nat :=
  (s.outcomes.filter (fun p => p.1 = tok)).length

/-- The outcome delivered to a caller token (most recent first, though at
most one settlement ever occurs per token). -/
def outLookup (outs : List (Nat × PromiseOutcome)) (tok : Nat) : Option PromiseOutcome :=
  (outs.find? (fun p => p.1 = tok)).map (fun p => p.2)

/-! ## `sendTransaction`: client wait, registration, delivery -/

/-- The client-wait loop of `sendTransaction` (wallet-server.ts lines
217–223): `while (this.clients.size === 0 && Date.now() - startTime <
timeout) await sleep(500)` with `timeout = 30000`.  `clientsAt t` is the
ClientSet as observed `t` milliseconds after `startTime`; each sleep
advances the clock by exactly 500.  Returns the elapsed time at which the
loop exits; `fuel` is a structural bound that is never reached when it is at
least 61 (the time condition fails after at most 60 sleeps). -/
def waitWhileEmpty (clientsAt : Nat → List WSClient) : Nat → Nat → Nat
  | 0, elapsed => elapsed
  | fuel + 1, elapsed =>
    if (clientsAt elapsed).isEmpty ∧ elapsed < 30000 then
      waitWhileEmpty clientsAt fuel (elapsed + 500)
    else elapsed

/-- The delivery loop of `sendTransaction` (lines 236–242): walk the
ClientSet in order, send to the first socket whose `readyState` is
`WebSocket.OPEN`, then `break`. -/
def firstOpenClient : List WSClient → Option WSClient
  | [] => none
  | c :: rest => if c.readyState = wsOPEN then some c else firstOpenClient rest

/-- The same loop, recording which sockets `client.send(message)` actually
reached, each paired with the message it was sent. -/
def deliverSends (msg : String) : List WSClient → List (WSClient × String)
  | [] => []
  | c :: rest => if c.readyState = wsOPEN then [(c, msg)] else deliverSends msg rest

/-- Error message of wallet-server.ts line 226. -/
def noWalletMsg : String :=
  "No wallet connected. Please open the browser and connect your wallet."

/-- Error message of wallet-server.ts line 246. -/
def noActiveMsg : String := "No active wallet connection"

/-- Timeout rejection message of wallet-server.ts line 254. -/
def timedOutMsg : String := "Transaction request timed out"

/-- What a `sendTransaction` call did up to the point where it either threw
or successfully delivered the request and armed its 5-minute timer. -/
inductive SendOutcome where
  | failed (msg : String)
  | dispatched (recipient : WSClient)
deriving Repr, DecidableEq

/-- The body of `sendTransaction` after the server is started and the
browser nudge (wallet-server.ts lines 217–257), for a call identified by
the fresh caller token `tok`:

* if the ClientSet is empty, run the 500 ms poll loop (bounded by 30 s);
  if it is still empty afterwards, throw the "No wallet connected" error —
  nothing is registered;
* otherwise `pendingRequests.set(request.id, ...)`, then send the
  serialized request to the first open client; if no client is open, delete
  the just-set entry and reject with "No active wallet connection";
* on successful delivery the entry stays registered (the armed timer and
  settlement are handled by `step`).

Returns the updated Correlation Table and the call's immediate outcome. -/
def sendTransactionStep (clientsAt : Nat → List WSClient)
    (pending : List (String × Nat)) (req : TransactionRequest) (tok : Nat) :
    List (String × Nat) × SendOutcome :=
  let tExit := if (clientsAt 0).isEmpty then waitWhileEmpty clientsAt 61 0 else 0
  let cs := clientsAt tExit
  if cs.isEmpty then
    (pending, .failed noWalletMsg)
  else
    let p1 := mapSet pending req.id tok
    match firstOpenClient cs with
    | some c => (p1, .dispatched c)
    | none => (mapDelete p1 req.id, .failed noActiveMsg)

/-! ## Port acquisition: `startWithRetry` -/

/-- Outcome of one `tryListen(port)` attempt, as an environment the retry
loop queries: successful bind, `EADDRINUSE`, or any other listen error. -/
inductive BindOutcome where
  | ok
  | addrInUse
  | otherError (msg : String)
deriving Repr, DecidableEq

/-- The mutable fields of `WalletServer` that `startWithRetry` touches. -/
structure PortState where
  port : Nat
  isStarted : Bool
deriving Repr, DecidableEq

/-- Exhaustion error of wallet-server.ts lines 166–169. -/
def exhaustedMsg (originalPort maxAttempts : Nat) : String :=
  "Failed to start wallet server: Ports " ++ toString originalPort ++ "-" ++
    toString (originalPort + maxAttempts - 1) ++
    " are all in use. Please free up a port or specify a different starting port."

/-- How `startWithRetry` ended: a successful bind, a rethrown non-retryable
listen error, or the exhaustion error after all attempts. -/
inductive StartResult where
  | started
  | thrownOther (msg : String)
  | thrownExhausted (msg : String)
deriving Repr, DecidableEq

/-- The attempt loop of `startWithRetry` (wallet-server.ts lines 143–169):
`remaining` counts the loop iterations left out of `maxAttempts`.  Each
`EADDRINUSE` failure does `this.port++` and retries; any other error is
rethrown at once; success sets `isStarted`.  Falling out of the loop throws
the exhaustion error naming the range starting at `originalPort`. -/
def startLoop (bind : Nat → BindOutcome) (originalPort maxAttempts : Nat) :
    PortState → Nat → PortState × StartResult
  | st, 0 => (st, .thrownExhausted (exhaustedMsg originalPort maxAttempts))
  | st, remaining + 1 =>
    match bind st.port with
    | .ok => ({ st with isStarted := true }, .started)
    | .addrInUse => startLoop bind originalPort maxAttempts { st with port := st.port + 1 } remaining
    | .otherError m => (st, .thrownOther m)

/-- `startWithRetry(maxAttempts = 10)`: `originalPort` is saved from
`this.port` on entry. -/
def startWithRetry (bind : Nat → BindOutcome) (st : PortState) : PortState × StartResult :=
  startLoop bind st.port 10 st 10

/-- `getPort()` (wallet-server.ts lines 264–266). -/
def getPort (st : PortState) : Nat := st.port

/-! ## Browser wallet client: provider-call traces

The wallet UI script is modelled by the sequence of
`window.ethereum.request({method; ...})` calls each handler issues. -/

/-- A wallet-provider request issued by the browser client. -/
inductive ProviderCall where
  | eth_chainId
  | wallet_switchEthereumChain (chainId : String)
  | wallet_addEthereumChain (chainId : String)
  | eth_getBalance
  | eth_accounts
  | eth_sendTransaction
  | personal_sign
  | eth_signTypedData_v4
deriving Repr, DecidableEq

/-- `CHAIN_CONFIGS[name].chainId` from the wallet UI script. -/
def chainConfigId (name : String) : Option String :=
  if name = "mainnet" then some "0x1"
  else if name = "arbitrum" then some "0xa4b1"
  else if name = "avalanche" then some "0xa86a"
  else if name = "base" then some "0x2105"
  else if name = "bnb" then some "0x38"
  else if name = "gnosis" then some "0x64"
  else if name = "sonic" then some "0x92"
  else if name = "optimism" then some "0xa"
  else if name = "polygon" then some "0x89"
  else if name = "zksync" then some "0x144"
  else if name = "linea" then some "0xe708"
  else if name = "unichain" then some "0x82"
  else none

/-- How the provider answers a `wallet_switchEthereumChain` request:
success, error code 4902 (chain unrecognized by the wallet), or another
error. -/
inductive SwitchOutcome where
  | ok
  | unrecognized
  | failed (msg : String)
deriving Repr, DecidableEq

/-- The provider-side environment the browser client talks to. -/
structure ClientEnv where
  /-- what `eth_chainId` currently returns -/
  chainId : String
  /-- how `wallet_switchEthereumChain` answers for each target chain id -/
  switchOutcome : String → SwitchOutcome
  /-- whether `wallet_addEthereumChain` succeeds -/
  addOk : Bool

/-- `updateWalletInfo()` queries `eth_chainId` and `eth_getBalance`
(catching its own errors). -/
def updateWalletInfoCalls : List ProviderCall :=
  [.eth_chainId, .eth_getBalance]

/-- Provider calls issued by `switchToChain(chainName)` in the wallet UI
script: it always reads `eth_chainId` first; returns early when the chain is
unknown to `CHAIN_CONFIGS` or already selected; otherwise requests
`wallet_switchEthereumChain`, falling back to `wallet_addEthereumChain` on
error 4902; after a successful switch/add it runs `updateWalletInfo()`. -/
def switchToChainCalls (env : ClientEnv) (chainName : String) : List ProviderCall :=
  ProviderCall.eth_chainId ::
    (match chainConfigId chainName with
     | none => []
     | some target =>
       if env.chainId = target then []
       else
         match env.switchOutcome target with
         | .ok => ProviderCall.wallet_switchEthereumChain target :: updateWalletInfoCalls
         | .unrecognized =>
           ProviderCall.wallet_switchEthereumChain target ::
             ProviderCall.wallet_addEthereumChain target ::
               (if env.addOk then updateWalletInfoCalls else [])
         | .failed _ => [ProviderCall.wallet_switchEthereumChain target])

/-- Provider calls issued by the client's `ws.onmessage` handler on receipt
of a request, before any user approval: when `request.chain` is truthy and
not the sentinel `"any"`, it awaits `switchToChain(request.chain)`; then it
only renders the preview and waits. -/
def clientOnMessageCalls (env : ClientEnv) (req : TransactionRequest) : List ProviderCall :=
  if req.chain ≠ "" ∧ req.chain ≠ "any" then switchToChainCalls env req.chain else []

/-- The provider call that performs the work of a request in `approveTx`. -/
def signingCall (ty : String) : List ProviderCall :=
  if ty = "send_transaction" then [.eth_sendTransaction]
  else if ty = "sign_message" then [.personal_sign]
  else if ty = "sign_typed_data" then [.eth_signTypedData_v4]
  else []

/-- Provider calls issued by `approveTx()` after the user clicks approve:
if no account is cached it queries `eth_accounts` (throwing when that yields
none), then issues exactly the signing/sending request for the request's
type.  It performs no chain switch. -/
def approveTxCalls (hasAccount : Bool) (accountsNonempty : Bool)
    (req : TransactionRequest) : List ProviderCall :=
  if hasAccount then signingCall req.type
  else if accountsNonempty then ProviderCall.eth_accounts :: signingCall req.type
  else [.eth_accounts]

/-- Whether a provider call is one of the signing/sending operations. -/
def isSigningCall : ProviderCall → Bool
  | .eth_sendTransaction => true
  | .personal_sign => true
  | .eth_signTypedData_v4 => true
  | _ => false

/-- Whether a provider call is part of a chain switch. -/
def isSwitchCall : ProviderCall → Bool
  | .wallet_switchEthereumChain _ => true
  | .wallet_addEthereumChain _ => true
  | _ => false

/-- `JSON.stringify(request)` for a `TransactionRequest`, with `data` kept
as an opaque pre-serialized fragment. -/
def serializeRequest (req : TransactionRequest) : String :=
  "\x7b\"id\":\"" ++ req.id ++ "\",\"type\":\"" ++ req.type ++
    "\",\"chain\":\"" ++ req.chain ++ "\",\"data\":" ++ req.data ++ "\x7d"

/-! ## Association-list map lemmas -/

theorem mapGet_eq_none_iff (m : List (String × Nat)) (k : String) :
    mapGet m k = none ↔ ∀ p ∈ m, p.1 ≠ k := by
  induction m with
  | nil => simp [mapGet]
  | cons p rest ih =>
    by_cases hp : p.1 = k
    · simp [mapGet, List.find?_cons, hp]
    · simp only [mapGet, List.find?_cons] at ih ⊢
      simp [hp, ih]

theorem mapDelete_of_get_none (m : List (String × Nat)) (k : String)
    (h : mapGet m k = none) : mapDelete m k = m := by
  rw [mapGet_eq_none_iff] at h
  unfold mapDelete
  rw [List.filter_eq_self]
  intro a ha
  simpa using h a ha

theorem mapSet_of_get_none (m : List (String × Nat)) (k : String) (v : Nat)
    (h : mapGet m k = none) : mapSet m k v = m ++ [(k, v)] := by
  rw [mapGet_eq_none_iff] at h
  unfold mapSet
  have : m.any (fun p => p.1 = k) = false := by
    simp only [List.any_eq_false]
    intro p hp
    simpa using h p hp
  simp [this]

theorem mapDelete_mapSet_fresh (m : List (String × Nat)) (k : String) (v : Nat)
    (h : mapGet m k = none) : mapDelete (mapSet m k v) k = m := by
  rw [mapSet_of_get_none m k v h]
  unfold mapDelete
  rw [List.filter_append]
  have h2 : List.filter (fun p => decide (p.1 ≠ k)) [(k, v)] = [] := by simp
  rw [h2, List.append_nil]
  have := mapDelete_of_get_none m k h
  simpa [mapDelete] using this

theorem mapGet_mapDelete_ne (m : List (String × Nat)) (k k' : String)
    (h : k' ≠ k) : mapGet (mapDelete m k) k' = mapGet m k' := by
  induction m with
  | nil => rfl
  | cons p rest ih =>
    by_cases hp : p.1 = k
    · have hp' : ¬ p.1 = k' := fun hh => h (by rw [← hh, hp])
      have h1 : mapDelete (p :: rest) k = mapDelete rest k := by
        simp [mapDelete, List.filter_cons, hp]
      have h2 : mapGet (p :: rest) k' = mapGet rest k' := by
        simp [mapGet, List.find?_cons, hp']
      rw [h1, h2, ih]
    · have h1 : mapDelete (p :: rest) k = p :: mapDelete rest k := by
        simp [mapDelete, List.filter_cons, hp]
      by_cases hq : p.1 = k'
      · have h2 : mapGet (p :: mapDelete rest k) k' = some p.2 := by
          simp [mapGet, List.find?_cons, hq]
        have h3 : mapGet (p :: rest) k' = some p.2 := by
          simp [mapGet, List.find?_cons, hq]
        rw [h1, h2, h3]
      · have h2 : mapGet (p :: mapDelete rest k) k' = mapGet (mapDelete rest k) k' := by
          simp [mapGet, List.find?_cons, hq]
        have h3 : mapGet (p :: rest) k' = mapGet rest k' := by
          simp [mapGet, List.find?_cons, hq]
        rw [h1, h2, h3, ih]

theorem mapGet_mapDelete_self (m : List (String × Nat)) (k : String) :
    mapGet (mapDelete m k) k = none := by
  rw [mapGet_eq_none_iff]
  intro p hp
  unfold mapDelete at hp
  have := (List.mem_filter.mp hp).2
  simpa using this

theorem mapGet_eq_some_elim (m : List (String × Nat)) (k : String) (t : Nat)
    (h : mapGet m k = some t) :
    ∃ e, m.find? (fun p => p.1 = k) = some e ∧ e.1 = k ∧ e.2 = t ∧ e ∈ m := by
  unfold mapGet at h
  cases hf : m.find? (fun p => p.1 = k) with
  | none => rw [hf] at h; simp at h
  | some e =>
    rw [hf] at h
    refine ⟨e, rfl, ?_, ?_, List.mem_of_find?_eq_some hf⟩
    · have := List.find?_some hf; simpa using this
    · simpa using h

/-! ## Settle-step lemmas -/

theorem settleWith_not_found (s : ServerState) (key : String) (out : PromiseOutcome)
    (h : mapGet s.pending key = none) : settleWith s key out = s := by
  unfold settleWith
  unfold mapGet at h
  cases hf : s.pending.find? (fun p => p.1 = key) with
  | none => simp
  | some e => rw [hf] at h; simp at h

theorem settleWith_found (s : ServerState) (key : String) (out : PromiseOutcome) (t : Nat)
    (h : mapGet s.pending key = some t) :
    settleWith s key out =
      { s with pending := mapDelete s.pending key
               outcomes := (t, out) :: s.outcomes } := by
  obtain ⟨e, hf, _, he2, _⟩ := mapGet_eq_some_elim _ _ _ h
  subst he2
  unfold settleWith
  rw [hf]

theorem settleWith_removes (s : ServerState) (key : String) (out : PromiseOutcome) :
    mapGet (settleWith s key out).pending key = none := by
  unfold settleWith
  cases hf : s.pending.find? (fun p => p.1 = key) with
  | none =>
    have : mapGet s.pending key = none := by unfold mapGet; rw [hf]; rfl
    simpa using this
  | some e => simpa using mapGet_mapDelete_self s.pending key

/-! ## At-most-one-settlement invariant -/

theorem two_le_length_of_mem_ne {α : Type} {a b : α} {l : List α}
    (ha : a ∈ l) (hb : b ∈ l) (hne : a ≠ b) : 2 ≤ l.length := by
  induction l with
  | nil => cases ha
  | cons c rest ih =>
    rcases List.mem_cons.mp ha with h1 | h1
    · rcases List.mem_cons.mp hb with h2 | h2
      · exact absurd (h1.trans h2.symm) hne
      · have : rest ≠ [] := List.ne_nil_of_mem h2
        have := List.length_pos.mpr this
        simp only [List.length_cons]
        omega
    · rcases List.mem_cons.mp hb with h2 | h2
      · have : rest ≠ [] := List.ne_nil_of_mem h1
        have := List.length_pos.mpr this
        simp only [List.length_cons]
        omega
      · have := ih h1 h2
        simp only [List.length_cons]
        omega

/-- One settle step preserves the invariant "the caller token `tok` has been
settled at most once, counting its live pending entry": a found entry moves
one unit from the pending side to the outcomes side, an absent key changes
nothing. -/
theorem settleWith_tokBound (s : ServerState) (key : String) (out : PromiseOutcome) (tok : Nat)
    (h : outTokCount tok s + pendTokCount tok s ≤ 1) :
    outTokCount tok (settleWith s key out) + pendTokCount tok (settleWith s key out) ≤ 1 := by
  cases hf : s.pending.find? (fun p => p.1 = key) with
  | none =>
    have hg : mapGet s.pending key = none := by unfold mapGet; rw [hf]; rfl
    rw [settleWith_not_found s key out hg]
    exact h
  | some e =>
    have hget : mapGet s.pending key = some e.2 := by unfold mapGet; rw [hf]; rfl
    rw [settleWith_found s key out e.2 hget]
    have hmem := List.mem_of_find?_eq_some hf
    have hkey : e.1 = key := by simpa using List.find?_some hf
    simp only [outTokCount, pendTokCount] at h ⊢
    by_cases he : e.2 = tok
    · have hemem : e ∈ s.pending.filter (fun p => p.2 = tok) :=
        List.mem_filter.mpr ⟨hmem, by simp [he]⟩
      have hpos : 0 < (s.pending.filter (fun p => p.2 = tok)).length :=
        List.length_pos.mpr (List.ne_nil_of_mem hemem)
      have hpend0 : ((mapDelete s.pending key).filter (fun p => p.2 = tok)).length = 0 := by
        by_contra hne
        have hposn : 0 < ((mapDelete s.pending key).filter (fun p => p.2 = tok)).length :=
          Nat.pos_of_ne_zero hne
        have hnil : (mapDelete s.pending key).filter (fun p => p.2 = tok) ≠ [] := by
          intro hh
          rw [hh] at hposn
          simp at hposn
        obtain ⟨x, hx⟩ := List.exists_mem_of_ne_nil _ hnil
        have hx1 := List.mem_filter.mp hx
        have hxp : x ∈ s.pending := (List.mem_filter.mp hx1.1).1
        have hxk : x.1 ≠ key := by
          have := (List.mem_filter.mp hx1.1).2
          simpa using this
        have hxt : x.2 = tok := by simpa using hx1.2
        have hxe : x ≠ e := fun hh => hxk (by rw [hh, hkey])
        have h2 : 2 ≤ (s.pending.filter (fun p => p.2 = tok)).length :=
          two_le_length_of_mem_ne (List.mem_filter.mpr ⟨hxp, by simp [hxt]⟩) hemem hxe
        omega
      have hout' : (((e.2, out) :: s.outcomes).filter (fun p => p.1 = tok)).length
          = 1 + (s.outcomes.filter (fun p => p.1 = tok)).length := by
        simp [List.filter_cons, he, Nat.add_comm]
      rw [hout', hpend0]
      omega
    · have hout' : (((e.2, out) :: s.outcomes).filter (fun p => p.1 = tok)).length
          = (s.outcomes.filter (fun p => p.1 = tok)).length := by
        simp [List.filter_cons, he]
      have hpend' : ((mapDelete s.pending key).filter (fun p => p.2 = tok)).length
          ≤ (s.pending.filter (fun p => p.2 = tok)).length := by
        unfold mapDelete
        exact ((List.filter_sublist _).filter _).length_le
      rw [hout']
      omega

/-- Every inbound event preserves the at-most-one-settlement invariant. -/
theorem step_tokBound (s : ServerState) (e : RelayEvent) (tok : Nat)
    (h : outTokCount tok s + pendTokCount tok s ≤ 1) :
    outTokCount tok (step s e) + pendTokCount tok (step s e) ≤ 1 := by
  cases e with
  | message parsed =>
    cases parsed with
    | none => exact h
    | some r => exact settleWith_tokBound s r.id (settleOutcome r) tok h
  | timer id => exact settleWith_tokBound s id (.rejected timedOutMsg) tok h
  | connect c => simpa [step, outTokCount, pendTokCount] using h
  | disconnect c => simpa [step, outTokCount, pendTokCount] using h
  | socketError c => simpa [step, outTokCount, pendTokCount] using h

/-! ## Client-wait loop lemmas -/

theorem waitWhileEmpty_succ (clientsAt : Nat → List WSClient) (f elapsed : Nat) :
    waitWhileEmpty clientsAt (f + 1) elapsed =
      if (clientsAt elapsed).isEmpty ∧ elapsed < 30000 then
        waitWhileEmpty clientsAt f (elapsed + 500)
      else elapsed := by
  rw [waitWhileEmpty]

/-- When no client ever connects, the poll loop exits exactly at the 30 s
deadline, having slept in 500 ms steps. -/
theorem waitWhileEmpty_all_empty (clientsAt : Nat → List WSClient)
    (hAll : ∀ t, clientsAt t = []) :
    ∀ (fuel elapsed : Nat), elapsed + 500 * fuel = 30500 → elapsed ≤ 30000 →
      waitWhileEmpty clientsAt fuel elapsed = 30000 := by
  intro fuel
  induction fuel with
  | zero => intro elapsed h1 h2; omega
  | succ f ih =>
    intro elapsed h1 h2
    by_cases hlt : elapsed < 30000
    · have hcond : (clientsAt elapsed).isEmpty ∧ elapsed < 30000 := by
        refine ⟨?_, hlt⟩
        rw [hAll]
        rfl
      rw [waitWhileEmpty_succ, if_pos hcond]
      exact ih (elapsed + 500) (by omega) (by omega)
    · have helapsed : elapsed = 30000 := by omega
      rw [waitWhileEmpty_succ, if_neg (fun hc => hlt hc.2)]
      exact helapsed

/-! ## Port-retry loop lemmas -/

theorem startLoop_zero (bind : Nat → BindOutcome) (origin m : Nat) (st : PortState) :
    startLoop bind origin m st 0 = (st, .thrownExhausted (exhaustedMsg origin m)) := rfl

theorem startLoop_succ_ok (bind : Nat → BindOutcome) (origin m : Nat) (st : PortState)
    (r : Nat) (h : bind st.port = .ok) :
    startLoop bind origin m st (r + 1) = ({ st with isStarted := true }, .started) := by
  rw [startLoop, h]

theorem startLoop_succ_addrInUse (bind : Nat → BindOutcome) (origin m : Nat) (st : PortState)
    (r : Nat) (h : bind st.port = .addrInUse) :
    startLoop bind origin m st (r + 1) =
      startLoop bind origin m { st with port := st.port + 1 } r := by
  rw [startLoop, h]

theorem startLoop_succ_other (bind : Nat → BindOutcome) (origin m : Nat) (st : PortState)
    (r : Nat) (msg : String) (h : bind st.port = .otherError msg) :
    startLoop bind origin m st (r + 1) = (st, .thrownOther msg) := by
  rw [startLoop, h]

/-- Skipping `k` consecutive `EADDRINUSE` failures advances the port by `k`
and consumes `k` attempts. -/
theorem startLoop_skip (bind : Nat → BindOutcome) (origin m : Nat) :
    ∀ (k : Nat) (st : PortState) (r : Nat), k ≤ r →
      (∀ i, i < k → bind (st.port + i) = .addrInUse) →
      startLoop bind origin m st r =
        startLoop bind origin m ⟨st.port + k, st.isStarted⟩ (r - k) := by
  intro k
  induction k with
  | zero =>
    intro st r _ _
    have h1 : (⟨st.port + 0, st.isStarted⟩ : PortState) = st := by cases st; rfl
    rw [h1, Nat.sub_zero]
  | succ kk ih =>
    intro st r hkr hbusy
    obtain ⟨r', rfl⟩ : ∃ r', r = r' + 1 := ⟨r - 1, by omega⟩
    have h0 : bind st.port = .addrInUse := by simpa using hbusy 0 (by omega)
    have ihh := ih { st with port := st.port + 1 } r' (by omega) (fun i hi => by
      have e : st.port + 1 + i = st.port + (i + 1) := by omega
      show bind (st.port + 1 + i) = .addrInUse
      rw [e]
      exact hbusy (i + 1) (by omega))
    rw [startLoop_succ_addrInUse bind origin m st r' h0, ihh]
    have e1 : st.port + 1 + kk = st.port + (kk + 1) := by omega
    have e2 : r' - kk = r' + 1 - (kk + 1) := by omega
    rw [show ({ st with port := st.port + 1 } : PortState).port = st.port + 1 from rfl]
    rw [e1, e2]

theorem run_tokBound (tok : Nat) :
    ∀ (es : List RelayEvent) (s : ServerState),
      outTokCount tok s + pendTokCount tok s ≤ 1 →
      outTokCount tok (run s es) + pendTokCount tok (run s es) ≤ 1 := by
  intro es
  induction es with
  | nil => intro s h; exact h
  | cons e rest ih =>
    intro s h
    have h1 := step_tokBound s e tok h
    simpa [run, List.foldl_cons] using ih (step s e) h1

/-! ## Outcome-lookup lemmas -/

theorem outLookup_cons_self (outs : List (Nat × PromiseOutcome)) (tok : Nat)
    (out : PromiseOutcome) : outLookup ((tok, out) :: outs) tok = some out := by
  simp [outLookup, List.find?_cons]

theorem outLookup_cons_ne (outs : List (Nat × PromiseOutcome)) (tok t' : Nat)
    (out : PromiseOutcome) (h : t' ≠ tok) :
    outLookup ((t', out) :: outs) tok = outLookup outs tok := by
  simp [outLookup, List.find?_cons, h]

/-! ## Delivery-loop lemmas -/

theorem deliverSends_length_le_one (msg : String) :
    ∀ cs, (deliverSends msg cs).length ≤ 1
  | [] => by simp [deliverSends]
  | c :: rest => by
    by_cases h : c.readyState = wsOPEN
    · simp [deliverSends, h]
    · simpa [deliverSends, h] using deliverSends_length_le_one msg rest

theorem deliverSends_first (msg : String) (cs : List WSClient) (c : WSClient)
    (h : firstOpenClient cs = some c) :
    c.readyState = wsOPEN ∧ deliverSends msg cs = [(c, msg)] := by
  induction cs with
  | nil => cases h
  | cons c0 rest ih =>
    by_cases h0 : c0.readyState = wsOPEN
    · have hc : c0 = c := by simpa [firstOpenClient, h0] using h
      subst hc
      exact ⟨h0, by simp [deliverSends, h0]⟩
    · have h' : firstOpenClient rest = some c := by simpa [firstOpenClient, h0] using h
      have := ih h'
      exact ⟨this.1, by simpa [deliverSends, h0] using this.2⟩

theorem deliverSends_ne_nil_iff (msg : String) :
    ∀ cs, deliverSends msg cs ≠ [] ↔ ∃ x ∈ cs, x.readyState = wsOPEN
  | [] => by simp [deliverSends]
  | c :: rest => by
    by_cases h : c.readyState = wsOPEN
    · constructor
      · intro _
        exact ⟨c, List.mem_cons_self .., h⟩
      · intro _
        simp [deliverSends, h]
    · rw [show deliverSends msg (c :: rest) = deliverSends msg rest from by
        simp [deliverSends, h]]
      rw [deliverSends_ne_nil_iff msg rest]
      constructor
      · rintro ⟨x, hx, hxo⟩
        exact ⟨x, List.mem_cons_of_mem _ hx, hxo⟩
      · rintro ⟨x, hx, hxo⟩
        rcases List.mem_cons.mp hx with h1 | h1
        · exact absurd (h1 ▸ hxo) h
        · exact ⟨x, h1, hxo⟩

theorem firstOpenClient_first_index (cs : List WSClient) (c : WSClient)
    (h : firstOpenClient cs = some c) :
    ∃ i : Fin cs.length, cs.get i = c ∧
      ∀ j, (hj : j < cs.length) → j < i.1 → (cs.get ⟨j, hj⟩).readyState ≠ wsOPEN := by
  induction cs with
  | nil => cases h
  | cons c0 rest ih =>
    by_cases h0 : c0.readyState = wsOPEN
    · have hc : c0 = c := by simpa [firstOpenClient, h0] using h
      exact ⟨⟨0, by simp⟩, by simp [hc], fun j hj hj0 => absurd hj0 (Nat.not_lt_zero j)⟩
    · have h' : firstOpenClient rest = some c := by simpa [firstOpenClient, h0] using h
      obtain ⟨i, hget, hmin⟩ := ih h'
      refine ⟨⟨i.1 + 1, by simp only [List.length_cons]; exact Nat.succ_lt_succ i.2⟩,
        by simpa using hget, ?_⟩
      intro j hj hjlt
      cases j with
      | zero => simpa using h0
      | succ j' =>
        have hj' : j' < rest.length := by simpa using hj
        have hjlt' : j' + 1 < i.1 + 1 := hjlt
        have := hmin j' hj' (Nat.lt_of_succ_lt_succ hjlt')
        simpa using this

/-! ## Browser-client trace lemmas -/

theorem switchToChainCalls_no_signing (env : ClientEnv) (cn : String) :
    ∀ p ∈ switchToChainCalls env cn, isSigningCall p = false := by
  intro p hp
  unfold switchToChainCalls updateWalletInfoCalls at hp
  rcases List.mem_cons.mp hp with h | h
  · subst h; rfl
  · cases hc : chainConfigId cn with
    | none =>
      rw [hc] at h
      simp at h
    | some target =>
      rw [hc] at h
      dsimp only at h
      by_cases he : env.chainId = target
      · rw [if_pos he] at h
        simp at h
      · rw [if_neg he] at h
        cases ho : env.switchOutcome target with
        | ok =>
          rw [ho] at h
          simp at h
          rcases h with h | h | h <;> subst h <;> rfl
        | unrecognized =>
          rw [ho] at h
          cases hadd : env.addOk with
          | true =>
            simp [hadd] at h
            rcases h with h | h | h | h <;> subst h <;> rfl
          | false =>
            simp [hadd] at h
            rcases h with h | h <;> subst h <;> rfl
        | failed msg =>
          rw [ho] at h
          simp at h
          subst h; rfl

theorem approveTxCalls_no_switch (a b : Bool) (req : TransactionRequest) :
    ∀ p ∈ approveTxCalls a b req, isSwitchCall p = false := by
  intro p hp
  have hsig : ∀ q ∈ signingCall req.type, isSwitchCall q = false := by
    intro q hq
    unfold signingCall at hq
    split_ifs at hq <;> simp at hq <;> subst hq <;> rfl
  unfold approveTxCalls at hp
  cases a with
  | true =>
    simp at hp
    exact hsig p hp
  | false =>
    cases b with
    | true =>
      simp at hp
      rcases hp with h | h
      · subst h; rfl
      · exact hsig p h
    | false =>
      simp at hp
      subst hp; rfl

/-! ## Concrete instances used by the witnesses -/

/-- A state with one pending entry (id "a", caller token 5). -/
def s1ex : ServerState := ⟨[], [("a", 5)], []⟩

/-- A response for the unregistered id "b". -/
def r1ex : TransactionResponse := ⟨"b", true, some "0xabc", none⟩

/-- An inbound trace: a response for "b", a timer for "a", a timer for "b". -/
def es1ex : List RelayEvent := [.message (some r1ex), .timer "a", .timer "b"]

/-- A state with two concurrent in-flight requests. -/
def s2ex : ServerState := ⟨[], [("id1", 1), ("id2", 2)], []⟩

/-- Successful response to the first in-flight request. -/
def r2aex : TransactionResponse := ⟨"id1", true, some "0xaaa", none⟩

/-- Rejection response to the second in-flight request. -/
def r2bex : TransactionResponse := ⟨"id2", false, none, some "User rejected transaction"⟩

/-! ## Claims -/

/-- C1: for every registered request id, at most one of a real response, the
timeout expiry (or shutdown, which settles nothing in this model) settles
its pending awaitable: once the entry has been removed, a later inbound
response bearing that id and a later timer fire for it are exact no-ops on
the whole server state (delivering no second outcome and raising no error),
every settle step removes the entry it settles, and along any inbound event
trace a caller token receives at most one outcome. -/
theorem claim1_settle_exactly_once (s : ServerState) (id : String) (tok : Nat)
    (r : TransactionResponse) (es : List RelayEvent)
    (hpend : mapGet s.pending id = none) (hid : r.id = id)
    (hinv : outTokCount tok s + pendTokCount tok s ≤ 1) :
    step s (.message (some r)) = s ∧
    step s (.timer id) = s ∧
    (∀ (key : String) (out : PromiseOutcome),
      mapGet (settleWith s key out).pending key = none) ∧
    outTokCount tok (run s es) ≤ 1 := by
  refine ⟨?_, ?_, fun key out => settleWith_removes s key out, ?_⟩
  · show settleWith s r.id (settleOutcome r) = s
    rw [hid]
    exact settleWith_not_found s id _ hpend
  · exact settleWith_not_found s id _ hpend
  · have := run_tokBound tok es s hinv
    omega

theorem claim1_witness :
    step s1ex (.message (some r1ex)) = s1ex ∧
    step s1ex (.timer "b") = s1ex ∧
    (∀ (key : String) (out : PromiseOutcome),
      mapGet (settleWith s1ex key out).pending key = none) ∧
    outTokCount 5 (run s1ex es1ex) ≤ 1 :=
  claim1_settle_exactly_once s1ex "b" 5 r1ex es1ex (by decide) rfl (by decide)

/-- C2: responses are matched to pending calls strictly by id, never by
arrival order: with two distinct in-flight ids registered for distinct
caller tokens, whichever order the two responses arrive in, each caller
token receives exactly the outcome computed from the response bearing its
own id (resolution with that response's `result` on success, rejection
carrying its `error` text otherwise) — no swapping. -/
theorem claim2_match_by_id_not_order (s : ServerState) (id1 id2 : String) (t1 t2 : Nat)
    (r1 r2 : TransactionResponse)
    (hne : id1 ≠ id2) (ht : t1 ≠ t2)
    (h1 : r1.id = id1) (h2 : r2.id = id2)
    (hp1 : mapGet s.pending id1 = some t1) (hp2 : mapGet s.pending id2 = some t2) :
    (outLookup (run s [.message (some r1), .message (some r2)]).outcomes t1
        = some (settleOutcome r1) ∧
     outLookup (run s [.message (some r1), .message (some r2)]).outcomes t2
        = some (settleOutcome r2)) ∧
    (outLookup (run s [.message (some r2), .message (some r1)]).outcomes t1
        = some (settleOutcome r1) ∧
     outLookup (run s [.message (some r2), .message (some r1)]).outcomes t2
        = some (settleOutcome r2)) := by
  have hne' : id2 ≠ id1 := fun hh => hne hh.symm
  have ht' : t2 ≠ t1 := fun hh => ht hh.symm
  constructor
  · have step1 : step s (.message (some r1)) =
        { s with pending := mapDelete s.pending id1
                 outcomes := (t1, settleOutcome r1) :: s.outcomes } := by
      show settleWith s r1.id (settleOutcome r1) = _
      rw [h1]
      exact settleWith_found s id1 _ t1 hp1
    have hp2' : mapGet (mapDelete s.pending id1) id2 = some t2 := by
      rw [mapGet_mapDelete_ne _ _ _ hne']
      exact hp2
    have step2 : step (step s (.message (some r1))) (.message (some r2)) =
        { s with pending := mapDelete (mapDelete s.pending id1) id2
                 outcomes := (t2, settleOutcome r2) :: (t1, settleOutcome r1) :: s.outcomes } := by
      rw [step1]
      show settleWith _ r2.id (settleOutcome r2) = _
      rw [h2]
      exact settleWith_found _ id2 _ t2 hp2'
    have hrun : run s [.message (some r1), .message (some r2)]
        = step (step s (.message (some r1))) (.message (some r2)) := by
      simp [run]
    rw [hrun, step2]
    constructor
    · show outLookup ((t2, settleOutcome r2) :: (t1, settleOutcome r1) :: s.outcomes) t1 = _
      rw [outLookup_cons_ne _ _ _ _ ht', outLookup_cons_self]
    · show outLookup ((t2, settleOutcome r2) :: (t1, settleOutcome r1) :: s.outcomes) t2 = _
      rw [outLookup_cons_self]
  · have step1 : step s (.message (some r2)) =
        { s with pending := mapDelete s.pending id2
                 outcomes := (t2, settleOutcome r2) :: s.outcomes } := by
      show settleWith s r2.id (settleOutcome r2) = _
      rw [h2]
      exact settleWith_found s id2 _ t2 hp2
    have hp1' : mapGet (mapDelete s.pending id2) id1 = some t1 := by
      rw [mapGet_mapDelete_ne _ _ _ hne]
      exact hp1
    have step2 : step (step s (.message (some r2))) (.message (some r1)) =
        { s with pending := mapDelete (mapDelete s.pending id2) id1
                 outcomes := (t1, settleOutcome r1) :: (t2, settleOutcome r2) :: s.outcomes } := by
      rw [step1]
      show settleWith _ r1.id (settleOutcome r1) = _
      rw [h1]
      exact settleWith_found _ id1 _ t1 hp1'
    have hrun : run s [.message (some r2), .message (some r1)]
        = step (step s (.message (some r2))) (.message (some r1)) := by
      simp [run]
    rw [hrun, step2]
    constructor
    · show outLookup ((t1, settleOutcome r1) :: (t2, settleOutcome r2) :: s.outcomes) t1 = _
      rw [outLookup_cons_self]
    · show outLookup ((t1, settleOutcome r1) :: (t2, settleOutcome r2) :: s.outcomes) t2 = _
      rw [outLookup_cons_ne _ _ _ _ ht, outLookup_cons_self]

theorem claim2_witness :
    (outLookup (run s2ex [.message (some r2aex), .message (some r2bex)]).outcomes 1
        = some (settleOutcome r2aex) ∧
     outLookup (run s2ex [.message (some r2aex), .message (some r2bex)]).outcomes 2
        = some (settleOutcome r2bex)) ∧
    (outLookup (run s2ex [.message (some r2bex), .message (some r2aex)]).outcomes 1
        = some (settleOutcome r2aex) ∧
     outLookup (run s2ex [.message (some r2bex), .message (some r2aex)]).outcomes 2
        = some (settleOutcome r2bex)) :=
  claim2_match_by_id_not_order s2ex "id1" "id2" 1 2 r2aex r2bex
    (by decide) (by decide) rfl rfl (by decide) (by decide)

/-- A ClientSet trajectory in which no wallet ever connects. -/
def clientsNever : Nat → List WSClient := fun _ => []

/-- A ClientSet trajectory with one permanently connected but closed
(readyState CLOSED = 3) socket. -/
def clientsClosed : Nat → List WSClient := fun _ => [⟨1, 3⟩]

/-- A request used by the `sendTransaction` witnesses. -/
def req3ex : TransactionRequest := ⟨"req-3", "send_transaction", "any", "0x"⟩

/-- C3: with an empty ClientSet, `sendTransaction` polls at a fixed 500 ms
interval for at most the 30 s bound; when the set is still empty at the
deadline the call fails with the "No wallet connected" error, the
Correlation Table is returned unchanged (no entry registered, nothing
delivered), and the wait loop exits exactly at 30000 ms — the call does not
hang past the bound. -/
theorem claim3_no_client_bounded_wait (clientsAt : Nat → List WSClient)
    (pending : List (String × Nat)) (req : TransactionRequest) (tok : Nat)
    (hAll : ∀ t, clientsAt t = []) :
    sendTransactionStep clientsAt pending req tok = (pending, .failed noWalletMsg) ∧
    waitWhileEmpty clientsAt 61 0 = 30000 ∧
    (∀ f e, e < 30000 →
      waitWhileEmpty clientsAt (f + 1) e = waitWhileEmpty clientsAt f (e + 500)) := by
  refine ⟨?_, ?_, ?_⟩
  · simp [sendTransactionStep, hAll]
  · exact waitWhileEmpty_all_empty clientsAt hAll 61 0 (by norm_num) (by norm_num)
  · intro f e he
    rw [waitWhileEmpty_succ, if_pos ⟨by rw [hAll]; rfl, he⟩]

theorem claim3_witness :
    sendTransactionStep clientsNever [("p", 4)] req3ex 7 = ([("p", 4)], .failed noWalletMsg) ∧
    waitWhileEmpty clientsNever 61 0 = 30000 :=
  ⟨(claim3_no_client_bounded_wait clientsNever [("p", 4)] req3ex 7 (fun _ => rfl)).1,
   (claim3_no_client_bounded_wait clientsNever [("p", 4)] req3ex 7 (fun _ => rfl)).2.1⟩

/-- C4: port acquisition binds the preferred port, increments and retries on
`EADDRINUSE` for up to 10 consecutive ports, fails immediately on any other
bind error, fails after exhaustion with an error naming the range
`preferredPort`–`preferredPort+9`, and afterwards `getPort()` reports the
port actually bound, not the requested one. -/
theorem claim4_port_retry (bind : Nat → BindOutcome) (p0 k : Nat)
    (hk : k < 10) (hbusy : ∀ i, i < k → bind (p0 + i) = .addrInUse) :
    (bind (p0 + k) = .ok →
      startWithRetry bind ⟨p0, false⟩ = (⟨p0 + k, true⟩, .started) ∧
      getPort (startWithRetry bind ⟨p0, false⟩).1 = p0 + k) ∧
    (∀ msg, bind (p0 + k) = .otherError msg →
      startWithRetry bind ⟨p0, false⟩ = (⟨p0 + k, false⟩, .thrownOther msg)) ∧
    ((∀ i, i < 10 → bind (p0 + i) = .addrInUse) →
      startWithRetry bind ⟨p0, false⟩ =
        (⟨p0 + 10, false⟩, .thrownExhausted (exhaustedMsg p0 10)) ∧
      exhaustedMsg p0 10 =
        "Failed to start wallet server: Ports " ++ toString p0 ++ "-" ++ toString (p0 + 9) ++
          " are all in use. Please free up a port or specify a different starting port.") := by
  have hskip := startLoop_skip bind p0 10 k ⟨p0, false⟩ 10 (by omega) hbusy
  obtain ⟨r', hr'⟩ : ∃ r', 10 - k = r' + 1 := ⟨9 - k, by omega⟩
  refine ⟨?_, ?_, ?_⟩
  · intro hok
    have hres : startWithRetry bind ⟨p0, false⟩ = (⟨p0 + k, true⟩, .started) := by
      unfold startWithRetry
      rw [hskip, hr']
      exact startLoop_succ_ok bind p0 10 ⟨p0 + k, false⟩ r' hok
    exact ⟨hres, by rw [hres]; rfl⟩
  · intro msg hmsg
    unfold startWithRetry
    rw [hskip, hr']
    exact startLoop_succ_other bind p0 10 ⟨p0 + k, false⟩ r' msg hmsg
  · intro hall
    constructor
    · have hskip10 := startLoop_skip bind p0 10 10 ⟨p0, false⟩ 10 (le_refl _) hall
      unfold startWithRetry
      rw [hskip10]
      exact startLoop_zero bind p0 10 ⟨p0 + 10, false⟩
    · unfold exhaustedMsg
      have e : p0 + 10 - 1 = p0 + 9 := by omega
      rw [e]

/-- Binds fail with `EADDRINUSE` below port 103 and succeed from there. -/
def bindBusy3 : Nat → BindOutcome := fun p => if p < 103 then .addrInUse else .ok

/-- Every bind fails with `EADDRINUSE`. -/
def bindAllBusy : Nat → BindOutcome := fun _ => .addrInUse

theorem claim4_witness :
    (startWithRetry bindBusy3 ⟨100, false⟩ = (⟨103, true⟩, .started) ∧
     getPort (startWithRetry bindBusy3 ⟨100, false⟩).1 = 103) ∧
    startWithRetry bindAllBusy ⟨100, false⟩ =
      (⟨110, false⟩, .thrownExhausted (exhaustedMsg 100 10)) :=
  ⟨(claim4_port_retry bindBusy3 100 3 (by decide) (by decide)).1 (by decide),
   ((claim4_port_retry bindAllBusy 100 0 (by decide)
      (fun i hi => absurd hi (Nat.not_lt_zero i))).2.2 (fun i _ => rfl)).1⟩

/-- C5: in the DISPATCHED step `sendTransaction` registers the id and then
attempts delivery; when no socket in the (non-empty) ClientSet is open, the
just-registered entry is removed again and the call fails with "No active
wallet connection", leaving the Correlation Table exactly as it was before
the call. -/
theorem claim5_delivery_race_atomic (clientsAt : Nat → List WSClient)
    (pending : List (String × Nat)) (req : TransactionRequest) (tok : Nat)
    (h0 : clientsAt 0 ≠ [])
    (hopen : firstOpenClient (clientsAt 0) = none)
    (hfresh : mapGet pending req.id = none) :
    sendTransactionStep clientsAt pending req tok = (pending, .failed noActiveMsg) ∧
    mapDelete (mapSet pending req.id tok) req.id = pending := by
  have hb2 : (clientsAt 0).isEmpty = false := by
    cases hcl : clientsAt 0 with
    | nil => exact absurd hcl h0
    | cons a l => rfl
  exact ⟨by simp [sendTransactionStep, hb2, hopen, mapDelete_mapSet_fresh pending req.id tok hfresh],
    mapDelete_mapSet_fresh pending req.id tok hfresh⟩

theorem claim5_witness :
    sendTransactionStep clientsClosed [("old", 1)] req3ex 2 = ([("old", 1)], .failed noActiveMsg) ∧
    mapDelete (mapSet [("old", 1)] req3ex.id 2) req3ex.id = [("old", 1)] :=
  claim5_delivery_race_atomic clientsClosed [("old", 1)] req3ex 2
    (by decide) (by decide) (by decide)

/-- C7: a socket disconnect (the `close` handler, and likewise the `error`
handler) removes the socket from the ClientSet and leaves the Correlation
Table untouched: every pending entry in flight at that moment is neither
settled nor removed, remaining pending for a later response or its
timeout. -/
theorem claim7_disconnect_frame (s : ServerState) (c : WSClient) :
    (step s (.disconnect c)).pending = s.pending ∧
    (step s (.disconnect c)).outcomes = s.outcomes ∧
    (step s (.disconnect c)).clients = removeClient s.clients c ∧
    (∀ x ∈ (step s (.disconnect c)).clients, x.sid ≠ c.sid) ∧
    (∀ id, mapGet (step s (.disconnect c)).pending id = mapGet s.pending id) ∧
    (step s (.socketError c)).pending = s.pending ∧
    (step s (.socketError c)).outcomes = s.outcomes := by
  refine ⟨rfl, rfl, rfl, ?_, fun id => rfl, rfl, rfl⟩
  intro x hx
  have hx' : x ∈ s.clients.filter (fun y => y.sid ≠ c.sid) := hx
  have := (List.mem_filter.mp hx').2
  simpa using this

/-- C8: an inbound socket message whose raw bytes fail to parse is caught,
logged and ignored: the handler leaves the entire server state — Correlation
Table, ClientSet and delivered outcomes — exactly unchanged, and (being a
total function) throws nothing. -/
theorem claim8_malformed_message_ignored (s : ServerState) :
    step s (.message none) = s ∧
    run s [.message none] = s := ⟨rfl, rfl⟩

/-- The ClientSet used by the C9 witness: a closed socket followed by two
open ones. -/
def cs9ex : List WSClient := [⟨1, 3⟩, ⟨2, 1⟩, ⟨3, 1⟩]

/-- C9: delivery is point-to-point, not broadcast: the loop serializes the
request once and sends it to exactly the first socket of the ClientSet whose
state is open, then stops — at most one socket ever receives a given
request — and the `sent` flag reports whether any socket accepted
delivery. -/
theorem claim9_point_to_point (req : TransactionRequest) (cs : List WSClient) (c : WSClient)
    (hfo : firstOpenClient cs = some c) :
    (deliverSends (serializeRequest req) cs).length ≤ 1 ∧
    c.readyState = wsOPEN ∧
    deliverSends (serializeRequest req) cs = [(c, serializeRequest req)] ∧
    (∃ i : Fin cs.length, cs.get i = c ∧
      ∀ j, (hj : j < cs.length) → j < i.1 → (cs.get ⟨j, hj⟩).readyState ≠ wsOPEN) ∧
    (deliverSends (serializeRequest req) cs ≠ [] ↔ ∃ x ∈ cs, x.readyState = wsOPEN) := by
  obtain ⟨ho, hd⟩ := deliverSends_first (serializeRequest req) cs c hfo
  exact ⟨deliverSends_length_le_one _ cs, ho, hd, firstOpenClient_first_index cs c hfo,
    deliverSends_ne_nil_iff _ cs⟩

theorem claim9_witness :
    deliverSends (serializeRequest req3ex) cs9ex = [(⟨2, 1⟩, serializeRequest req3ex)] ∧
    (deliverSends (serializeRequest req3ex) cs9ex).length ≤ 1 :=
  ⟨(claim9_point_to_point req3ex cs9ex ⟨2, 1⟩ (by decide)).2.2.1,
   (claim9_point_to_point req3ex cs9ex ⟨2, 1⟩ (by decide)).1⟩

/-- C10: no schema validation beyond JSON parsing and id lookup: a response
whose id is registered resolves the call with whatever `result` holds —
including `undefined` when the field is absent — when `success` is true, and
when `success` is false with an absent or empty `error` field the call is
rejected with the generic "Transaction failed" message. -/
theorem claim10_no_schema_validation (s : ServerState) (rid : String) (tok : Nat)
    (r : TransactionResponse)
    (hp : mapGet s.pending rid = some tok) (hid : r.id = rid) :
    (r.success = true →
      outLookup (step s (.message (some r))).outcomes tok = some (.resolved r.result)) ∧
    (r.success = false → (r.error = none ∨ r.error = some "") →
      outLookup (step s (.message (some r))).outcomes tok
        = some (.rejected "Transaction failed")) := by
  have hstep : step s (.message (some r)) =
      { s with pending := mapDelete s.pending rid
               outcomes := (tok, settleOutcome r) :: s.outcomes } := by
    show settleWith s r.id (settleOutcome r) = _
    rw [hid]
    exact settleWith_found s rid _ tok hp
  constructor
  · intro hs
    have hout : settleOutcome r = .resolved r.result := by simp [settleOutcome, hs]
    rw [hstep]
    show outLookup ((tok, settleOutcome r) :: s.outcomes) tok = _
    rw [outLookup_cons_self, hout]
  · intro hs herr
    have hout : settleOutcome r = .rejected "Transaction failed" := by
      rcases herr with h | h <;> simp [settleOutcome, hs, jsOrDefault, h]
    rw [hstep]
    show outLookup ((tok, settleOutcome r) :: s.outcomes) tok = _
    rw [outLookup_cons_self, hout]

/-- A state with one registered id for the C10 witness. -/
def s10ex : ServerState := ⟨[], [("rid", 9)], []⟩

/-- Success response with the `result` field absent. -/
def r10a : TransactionResponse := ⟨"rid", true, none, none⟩

/-- Failure response with an empty `error` field. -/
def r10b : TransactionResponse := ⟨"rid", false, none, some ""⟩

theorem claim10_witness :
    outLookup (step s10ex (.message (some r10a))).outcomes 9 = some (.resolved none) ∧
    outLookup (step s10ex (.message (some r10b))).outcomes 9
      = some (.rejected "Transaction failed") :=
  ⟨(claim10_no_schema_validation s10ex "rid" 9 r10a (by decide) rfl).1 rfl,
   (claim10_no_schema_validation s10ex "rid" 9 r10b (by decide) rfl).2 rfl (Or.inr rfl)⟩

/-- A wallet environment currently on mainnet where chain switches
succeed. -/
def envMainnet : ClientEnv := ⟨"0x1", fun _ => .ok, true⟩

/-- A send-transaction request targeting polygon. -/
def reqPolygon : TransactionRequest := ⟨"req-1", "send_transaction", "polygon", "0xdata"⟩

/-- C6 counterexample: the browser client does perform wallet-provider
actions before user approval — on mere receipt of a request whose chain
("polygon", chain id 0x89) differs from the wallet's current chain (0x1),
the `onmessage` handler already issues the provider chain-switch, so its
pre-approval provider-call trace is non-empty. -/
theorem claim6_counterexample :
    ProviderCall.wallet_switchEthereumChain "0x89" ∈ clientOnMessageCalls envMainnet reqPolygon ∧
    clientOnMessageCalls envMainnet reqPolygon ≠ [] := by decide

/-- C6 (amended): the chain switch happens on receipt of the SigningRequest,
before user approval, not upon approval: when the request's chain is
non-empty and not the sentinel "any", the `onmessage` handler immediately
runs `switchToChain` (adding the chain when the provider reports it
unrecognized); requests with chain "any" (or empty) trigger no provider call
before approval; the pre-approval trace never contains a signing/sending
call; and `approveTx`, run only after explicit user approval, performs the
requested signing/sending operation and no chain switch. -/
theorem claim6_switch_on_receipt (env : ClientEnv) (req : TransactionRequest)
    (hasAccount accountsNonempty : Bool) :
    (req.chain = "" ∨ req.chain = "any" → clientOnMessageCalls env req = []) ∧
    (req.chain ≠ "" → req.chain ≠ "any" →
      clientOnMessageCalls env req = switchToChainCalls env req.chain) ∧
    (∀ p ∈ clientOnMessageCalls env req, isSigningCall p = false) ∧
    (∀ p ∈ approveTxCalls hasAccount accountsNonempty req, isSwitchCall p = false) ∧
    (hasAccount = true → approveTxCalls hasAccount accountsNonempty req = signingCall req.type) := by
  refine ⟨?_, ?_, ?_, approveTxCalls_no_switch hasAccount accountsNonempty req, ?_⟩
  · rintro (h | h) <;> simp [clientOnMessageCalls, h]
  · intro h1 h2
    simp [clientOnMessageCalls, h1, h2]
  · intro p hp
    by_cases hcond : req.chain ≠ "" ∧ req.chain ≠ "any"
    · rw [clientOnMessageCalls, if_pos hcond] at hp
      exact switchToChainCalls_no_signing env req.chain p hp
    · rw [clientOnMessageCalls, if_neg hcond] at hp
      cases hp
  · intro h
    simp [approveTxCalls, h]

theorem claim6_witness :
    clientOnMessageCalls envMainnet reqPolygon = switchToChainCalls envMainnet reqPolygon.chain ∧
    (∀ p ∈ clientOnMessageCalls envMainnet reqPolygon, isSigningCall p = false) ∧
    (∀ p ∈ approveTxCalls true true reqPolygon, isSwitchCall p = false) ∧
    approveTxCalls true true reqPolygon = signingCall reqPolygon.type :=
  ⟨(claim6_switch_on_receipt envMainnet reqPolygon true true).2.1 (by decide) (by decide),
   (claim6_switch_on_receipt envMainnet reqPolygon true true).2.2.1,
   (claim6_switch_on_receipt envMainnet reqPolygon true true).2.2.2.1,
   (claim6_switch_on_receipt envMainnet reqPolygon true true).2.2.2.2 rfl⟩
